import Mathlib

/-!
Shallow embedding of the overdue-invoice reminder dispatcher
(`supabase/functions/.../invoice-reminder.ts`, the Deno edge function).

Modelling conventions:
* Timestamps are `Int` milliseconds since the epoch (`Date.getTime()`).
* Nullable database columns are `Option` fields.  A JS-falsy `due_date`
  (null, undefined or the empty string) is `none`.
* `reminder_count` is `Option Nat`: the column may be null; the source
  guards it with JS truthiness (`inv.reminder_count && inv.reminder_count >= 3`)
  and reads it with `inv.reminder_count || 0`.
* The external effects (the Resend dispatch, the post-send update, the bulk
  read) are oracles carried in `RunParams`: `dispatchOk id` tells whether the
  `fetch` to the provider succeeds for that invoice, `updateOk id` whether
  the `invoices` update succeeds, `bulkReadError` is the error (if any) of
  the initial select.  supabase-js v2 builders return `{ data, error }` and
  do not reject, so the post-send update never throws; the handler ignores
  its result entirely.
* `RunState` additionally records instrumentation traces (which invoices had
  a profile lookup, a dispatch, an update attempt, which console.error logs
  were emitted) so that the theorems can speak about what the handler did.
-/

namespace InvoiceReminder

abbrev InvoiceId := Nat
abbrev UserId := Nat

/-- One row of the `invoices` table, restricted to the columns the function
selects: `id, user_id, amount, due_date, payment_reference, reminder_sent_at,
reminder_count, status`. -/
structure Invoice where
  id : InvoiceId
  user_id : UserId
  amount : Option Int
  due_date : Option Int
  payment_reference : String
  reminder_sent_at : Option Int
  reminder_count : Option Nat
  status : String
deriving Repr, DecidableEq

/-- One row of the `profiles` table (`email, first_name, last_name`). -/
structure Profile where
  email : Option String
  first_name : Option String
  last_name : Option String
deriving Repr, DecidableEq

/-- The data store: the `invoices` table and the `profiles` table. -/
structure Store where
  invoices : List Invoice
  profiles : List (UserId × Profile)
deriving Repr, DecidableEq

/-- Seven days in milliseconds (7 * 24 * 60 * 60 * 1000), the width of the
due-date window. -/
def sevenDaysMs : Int := 7 * 24 * 60 * 60 * 1000

/-- Per-invoice outcome of one loop iteration (instrumentation; the source
only materialises `remindersSent` and `console.error` logs). -/
inductive Outcome
  | skippedNoDueDate
  | skippedNotDue
  | skippedCapReached
  | skippedNoEmail
  | sent
  | dispatchFailed
deriving Repr, DecidableEq

/-- The oracles of one invocation: the clock and the outcomes of the three
kinds of external calls. -/
structure RunParams where
  now : Int
  dispatchOk : InvoiceId → Bool
  updateOk : InvoiceId → Bool
  bulkReadError : Option String

/-- Mutable state threaded through the `for (const inv of invoices)` loop,
plus instrumentation traces. -/
structure RunState where
  invoices : List Invoice
  remindersSent : Nat
  outcomes : List (Invoice × Outcome)
  lookups : List Invoice
  dispatches : List Invoice
  updates : List Invoice
  logs : List String
deriving Repr, DecidableEq

/-- The HTTP response of the handler: `{ success: true, remindersSent }`
with status 200, or `{ error: msg }` with status 500. -/
inductive Response
  | ok (remindersSent : Nat)
  | err (msg : String)
deriving Repr, DecidableEq

/-- Line 69: `if (inv.reminder_count && inv.reminder_count >= 3) continue;`.
JS truthiness: a null or zero count is falsy, so the guard only fires for a
present, non-zero count that is at least 3. -/
def capReached : Option Nat → Bool
  | none => false
  | some n => !(n == 0) && (3 ≤ n)

/-- Lines 71-75: `.from('profiles').select(...).eq('id', inv.user_id).single()`.
`.single()` yields an error unless exactly one row matches; an error is
modelled as `none`. -/
def lookupProfile (ps : List (UserId × Profile)) (uid : UserId) : Option Profile :=
  match ps.filter (fun q => q.1 == uid) with
  | [q] => some q.2
  | _ => none

/-- Line 76: `!user?.email` — a null or empty email string is falsy. -/
def contactEmail (p : Profile) : Option String :=
  match p.email with
  | none => none
  | some e => if e.isEmpty then none else some e

/-- Lines 78-87: subject and html body.  `inv.amount.toFixed(2)` throws a
TypeError when `amount` is null — and this happens OUTSIDE the per-invoice
`try` block, so the error propagates to the outer catch. -/
def composeEmail (inv : Invoice) (user : Profile) : Except String (String × String) :=
  match inv.amount with
  | none => Except.error "TypeError: cannot read toFixed of null"
  | some amt =>
    let fn := (user.first_name).getD ""
    let ln := (user.last_name).getD ""
    let subject := "Herinnering: openstaande factuur stockflow"
    let body :=
      "<h2>Herinnering: openstaande factuur</h2>" ++
      "<p>Beste " ++ fn ++ " " ++ ln ++ ",</p>" ++
      "<p>Uw factuur van EUR " ++ toString amt ++
      " met vervaldatum " ++ (inv.due_date.map toString).getD "" ++
      " is nog niet betaald.</p>" ++
      "<p>Gelieve te betalen op IBAN BE86731056413050 t.n.v. stockflow met mededeling " ++
      inv.payment_reference ++ ".</p>" ++
      "<p>Met vriendelijke groet, stockflow</p>"
    Except.ok (subject, body)

/-- What one loop iteration decides to do with an invoice (pure control part
of lines 66-97, in source order). -/
inductive Decision
  | skip (o : Outcome)
  | lookupSkip
  | throwAfterLookup (msg : String)
  | dispatched (ok : Bool)
deriving Repr, DecidableEq

/-- The guard sequence of the loop body, lines 66-89, in source order:
null due_date → window → cap → profile lookup / email → composition →
dispatch. -/
def decideInvoice (p : RunParams) (profs : List (UserId × Profile)) (inv : Invoice) :
    Decision :=
  match inv.due_date with
  | none => Decision.skip Outcome.skippedNoDueDate
  | some due =>
    if due > p.now ∧ due - p.now > sevenDaysMs then Decision.skip Outcome.skippedNotDue
    else if capReached inv.reminder_count then Decision.skip Outcome.skippedCapReached
    else
      match lookupProfile profs inv.user_id with
      | none => Decision.lookupSkip
      | some user =>
        match contactEmail user with
        | none => Decision.lookupSkip
        | some _email =>
          match composeEmail inv user with
          | Except.error msg => Decision.throwAfterLookup msg
          | Except.ok _ => Decision.dispatched (p.dispatchOk inv.id)

/-- The overwrite a post-send update performs on a matching row:
`reminder_sent_at := now`, `reminder_count := (inv.reminder_count || 0) + 1`,
with the count taken from the snapshot row `inv` of the loop. -/
def ovw (now : Int) (inv a : Invoice) : Invoice :=
  { a with reminder_sent_at := some now,
           reminder_count := some (inv.reminder_count.getD 0 + 1) }

/-- Lines 90-93: `update({ reminder_sent_at: now.toISOString(),
reminder_count: (inv.reminder_count || 0) + 1 }).eq('id', inv.id)`. -/
def applyUpdate (now : Int) (inv : Invoice) (invs : List Invoice) : List Invoice :=
  invs.map fun j => if j.id == inv.id then ovw now inv j else j

/-- State effect of one decision.  `Except.error` models an uncaught throw
escaping the loop to the outer catch.  In the `dispatched true` branch the
update is awaited but its `{ error }` result is ignored (the store changes
only when the oracle says the update succeeded), and `remindersSent++` runs
unconditionally afterwards.  In the `dispatched false` branch the inner
catch logs `console.error('Reminder e-mail error:', err)` and the loop
continues. -/
def applyDecision (p : RunParams) (inv : Invoice) (st : RunState) :
    Decision → Except RunState RunState
  | Decision.skip o =>
    Except.ok { st with outcomes := st.outcomes ++ [(inv, o)] }
  | Decision.lookupSkip =>
    Except.ok { st with lookups := st.lookups ++ [inv],
                        outcomes := st.outcomes ++ [(inv, Outcome.skippedNoEmail)] }
  | Decision.throwAfterLookup _msg =>
    Except.error { st with lookups := st.lookups ++ [inv] }
  | Decision.dispatched ok =>
    if ok then
      Except.ok { st with
        lookups := st.lookups ++ [inv],
        dispatches := st.dispatches ++ [inv],
        updates := st.updates ++ [inv],
        invoices := if p.updateOk inv.id then applyUpdate p.now inv st.invoices
                    else st.invoices,
        remindersSent := st.remindersSent + 1,
        outcomes := st.outcomes ++ [(inv, Outcome.sent)] }
    else
      Except.ok { st with
        lookups := st.lookups ++ [inv],
        dispatches := st.dispatches ++ [inv],
        logs := st.logs ++ ["Reminder e-mail error: Resend error"],
        outcomes := st.outcomes ++ [(inv, Outcome.dispatchFailed)] }

/-- One iteration of the loop body (lines 66-97). -/
def processInvoice (p : RunParams) (profs : List (UserId × Profile)) (inv : Invoice)
    (st : RunState) : Except RunState RunState :=
  applyDecision p inv st (decideInvoice p profs inv)

/-- The `for (const inv of invoices)` loop (lines 65-98).  An uncaught throw
aborts the remaining iterations. -/
def runLoop (p : RunParams) (profs : List (UserId × Profile)) :
    List Invoice → RunState → Except RunState RunState
  | [], st => Except.ok st
  | inv :: rest, st =>
    match processInvoice p profs inv st with
    | Except.error st1 => Except.error st1
    | Except.ok st1 => runLoop p profs rest st1

/-- Collapse the `Except` to the underlying state (both branches carry the
state reached so far). -/
def resState : Except RunState RunState → RunState
  | Except.ok st => st
  | Except.error st => st

/-- Initial loop state for a run over `db`. -/
def initState (db : Store) : RunState :=
  { invoices := db.invoices, remindersSent := 0, outcomes := [],
    lookups := [], dispatches := [], updates := [], logs := [] }

/-- Lines 59-62: the bulk read, with its storage-level filter
`.eq('status', 'open')`. -/
def snapshot (db : Store) : List Invoice :=
  db.invoices.filter (fun i => i.status == "open")

/-- The whole handler body (lines 52-108): bulk read (throwing to the outer
catch on error), the per-invoice loop, and the terminal response.  Returns
the final store, the HTTP response, and the final instrumented loop state. -/
def serveRun (p : RunParams) (db : Store) : Store × Response × RunState :=
  match p.bulkReadError with
  | some msg => (db, Response.err msg, initState db)
  | none =>
    match runLoop p db.profiles (snapshot db) (initState db) with
    | Except.ok st =>
      ({ db with invoices := st.invoices }, Response.ok st.remindersSent, st)
    | Except.error st =>
      ({ db with invoices := st.invoices }, Response.err "TypeError: cannot read toFixed of null", st)

/-- The store after one invocation. -/
def applyRun (p : RunParams) (db : Store) : Store := (serveRun p db).1

/-- The store after a sequence of non-overlapping invocations. -/
def applyRuns : List RunParams → Store → Store
  | [], db => db
  | p :: ps, db => applyRuns ps (applyRun p db)

/-- The 0..3 cap invariant on a stored invoice. -/
def rcLe3 (inv : Invoice) : Prop := inv.reminder_count.getD 0 ≤ 3

/-- The conditions under which the loop reaches the dispatch call for an
invoice: a present due date inside the window and an unreached cap. -/
def DispatchPre (p : RunParams) (j : Invoice) : Prop :=
  ∃ d, j.due_date = some d ∧ ¬(d > p.now ∧ d - p.now > sevenDaysMs) ∧
    capReached j.reminder_count = false

/-- How a stored row can evolve across (part of) a run over the snapshot
`l`: it is either untouched, or overwritten by the post-send update of some
snapshot invoice with its id that passed the guards, was dispatched
successfully, and whose update succeeded. -/
def Touched (p : RunParams) (l : List Invoice) (a b : Invoice) : Prop :=
  b = a ∨ ∃ inv, inv ∈ l ∧ inv.id = a.id ∧ inv.due_date.isSome = true ∧
    capReached inv.reminder_count = false ∧ p.dispatchOk inv.id = true ∧
    p.updateOk inv.id = true ∧ b = ovw p.now inv a

theorem ovw_id (now : Int) (inv a : Invoice) : (ovw now inv a).id = a.id := rfl

theorem ovw_ovw (now : Int) (i1 i2 a : Invoice) :
    ovw now i2 (ovw now i1 a) = ovw now i2 a := rfl

theorem touched_id {p : RunParams} {l : List Invoice} {a b : Invoice}
    (h : Touched p l a b) : b.id = a.id := by
  rcases h with rfl | ⟨inv, _, _, _, _, _, _, rfl⟩
  · rfl
  · rfl

theorem touched_refl (p : RunParams) (l : List Invoice) (a : Invoice) :
    Touched p l a a := Or.inl rfl

theorem touched_mono {p : RunParams} {l l' : List Invoice} (hs : ∀ x ∈ l, x ∈ l')
    {a b : Invoice} (h : Touched p l a b) : Touched p l' a b := by
  rcases h with rfl | ⟨inv, hm, h1, h2, h3, h4, h5, rfl⟩
  · exact Or.inl rfl
  · exact Or.inr ⟨inv, hs inv hm, h1, h2, h3, h4, h5, rfl⟩

theorem touched_trans {p : RunParams} {l : List Invoice} {a b c : Invoice}
    (h1 : Touched p l a b) (h2 : Touched p l b c) : Touched p l a c := by
  rcases h2 with rfl | ⟨inv, hm, hid, hd, hc, hdk, huk, rfl⟩
  · exact h1
  · rcases h1 with rfl | ⟨inv', _, hid', _, _, _, _, rfl⟩
    · exact Or.inr ⟨inv, hm, hid, hd, hc, hdk, huk, rfl⟩
    · exact Or.inr ⟨inv, hm, by rw [hid, ovw_id], hd, hc, hdk, huk, ovw_ovw ..⟩

theorem forall₂_touched_refl (p : RunParams) (l : List Invoice) :
    ∀ (xs : List Invoice), List.Forall₂ (Touched p l) xs xs
  | [] => List.Forall₂.nil
  | x :: xs => List.Forall₂.cons (touched_refl p l x) (forall₂_touched_refl p l xs)

theorem forall₂_touched_trans {p : RunParams} {l : List Invoice} :
    ∀ {l₁ l₂ l₃ : List Invoice}, List.Forall₂ (Touched p l) l₁ l₂ →
      List.Forall₂ (Touched p l) l₂ l₃ → List.Forall₂ (Touched p l) l₁ l₃ := by
  intro l₁ l₂ l₃ h1 h2
  induction h1 generalizing l₃ with
  | nil => cases h2; exact List.Forall₂.nil
  | cons hab h1' ih =>
    cases h2 with
    | cons hbc h2' => exact List.Forall₂.cons (touched_trans hab hbc) (ih h2')

theorem composeEmail_error {inv : Invoice} {user : Profile} {msg : String}
    (h : composeEmail inv user = Except.error msg) : inv.amount = none := by
  cases ha : inv.amount with
  | none => rfl
  | some amt => rw [composeEmail, ha] at h; simp at h

theorem decideInvoice_dispatched {p : RunParams} {profs : List (UserId × Profile)}
    {inv : Invoice} {b : Bool}
    (h : decideInvoice p profs inv = Decision.dispatched b) :
    b = p.dispatchOk inv.id ∧ DispatchPre p inv := by
  unfold decideInvoice at h
  split at h
  · simp at h
  · rename_i due hdue
    split at h
    · simp at h
    · rename_i hwin
      split at h
      · simp at h
      · rename_i hcap
        split at h
        · simp at h
        · split at h
          · simp at h
          · split at h
            · simp at h
            · injection h with hb
              exact ⟨hb.symm, due, hdue, hwin, by simpa using hcap⟩

theorem decideInvoice_of_due_none (p : RunParams) (profs : List (UserId × Profile))
    {inv : Invoice} (h : inv.due_date = none) :
    decideInvoice p profs inv = Decision.skip Outcome.skippedNoDueDate := by
  unfold decideInvoice
  rw [h]

theorem decideInvoice_throw_amount {p : RunParams} {profs : List (UserId × Profile)}
    {inv : Invoice} {msg : String}
    (h : decideInvoice p profs inv = Decision.throwAfterLookup msg) :
    inv.amount = none := by
  unfold decideInvoice at h
  split at h
  · simp at h
  · split at h
    · simp at h
    · split at h
      · simp at h
      · split at h
        · simp at h
        · split at h
          · simp at h
          · split at h
            · rename_i hcomp
              injection h with h1
              exact composeEmail_error hcomp
            · simp at h

theorem decideInvoice_nonskip_due (p : RunParams) (profs : List (UserId × Profile))
    {inv : Invoice} (h : ∀ o, decideInvoice p profs inv ≠ Decision.skip o) :
    inv.due_date.isSome = true := by
  cases hd : inv.due_date with
  | none => exact absurd (decideInvoice_of_due_none p profs hd) (h Outcome.skippedNoDueDate)
  | some d => rfl

theorem decideInvoice_eligible_not_skip (p : RunParams) (profs : List (UserId × Profile))
    {inv : Invoice} {d : Int} (hd : inv.due_date = some d)
    (hw : ¬(d > p.now ∧ d - p.now > sevenDaysMs))
    (hc : capReached inv.reminder_count = false) :
    ∀ o, decideInvoice p profs inv ≠ Decision.skip o := by
  intro o h
  unfold decideInvoice at h
  split at h
  · rename_i hnone
    rw [hd] at hnone
    exact Option.noConfusion hnone
  · rename_i due hdue
    rw [hd] at hdue
    injection hdue with hdd
    subst hdd
    rw [if_neg hw, if_neg (by simp [hc])] at h
    split at h
    · simp at h
    · split at h
      · simp at h
      · split at h
        · simp at h
        · simp at h

theorem forall₂_touched_applyUpdate {p : RunParams} {l : List Invoice} {inv : Invoice}
    (hm : inv ∈ l) (hd : inv.due_date.isSome = true)
    (hc : capReached inv.reminder_count = false) (hdk : p.dispatchOk inv.id = true)
    (huk : p.updateOk inv.id = true) :
    ∀ invs : List Invoice, List.Forall₂ (Touched p l) invs (applyUpdate p.now inv invs) := by
  intro invs
  induction invs with
  | nil => exact List.Forall₂.nil
  | cons a invs ih =>
    have hcons : applyUpdate p.now inv (a :: invs) =
        (if a.id == inv.id then ovw p.now inv a else a) :: applyUpdate p.now inv invs := rfl
    rw [hcons]
    refine List.Forall₂.cons ?_ ih
    by_cases hid : a.id = inv.id
    · rw [if_pos (by simp [hid])]
      exact Or.inr ⟨inv, hm, hid.symm, hd, hc, hdk, huk, rfl⟩
    · rw [if_neg (by simp [hid])]
      exact touched_refl p l a

theorem processInvoice_invoices_rel (p : RunParams) (profs : List (UserId × Profile))
    (inv : Invoice) (st : RunState) :
    List.Forall₂ (Touched p [inv]) st.invoices
      (resState (processInvoice p profs inv st)).invoices := by
  unfold processInvoice
  cases hdec : decideInvoice p profs inv with
  | skip o => exact forall₂_touched_refl ..
  | lookupSkip => exact forall₂_touched_refl ..
  | throwAfterLookup msg => exact forall₂_touched_refl ..
  | dispatched b =>
    obtain ⟨hb, d, hd, hw, hc⟩ := decideInvoice_dispatched hdec
    cases b with
    | false => exact forall₂_touched_refl ..
    | true =>
      simp only [applyDecision, if_pos, resState]
      by_cases hu : p.updateOk inv.id
      · rw [if_pos hu]
        exact forall₂_touched_applyUpdate (List.mem_singleton.mpr rfl)
          (by rw [hd]; rfl) hc hb.symm hu st.invoices
      · rw [if_neg hu]
        exact forall₂_touched_refl ..

theorem decideInvoice_skip {p : RunParams} {profs : List (UserId × Profile)}
    {inv : Invoice} {o : Outcome} (h : decideInvoice p profs inv = Decision.skip o) :
    o = Outcome.skippedNoDueDate ∨ o = Outcome.skippedNotDue ∨
      o = Outcome.skippedCapReached := by
  unfold decideInvoice at h
  split at h
  · injection h with h1; exact Or.inl h1.symm
  · split at h
    · injection h with h1; exact Or.inr (Or.inl h1.symm)
    · split at h
      · injection h with h1; exact Or.inr (Or.inr h1.symm)
      · split at h
        · simp at h
        · split at h
          · simp at h
          · split at h
            · simp at h
            · simp at h

/-- Soundness of one recorded outcome: a `sent` outcome means the dispatch
oracle succeeded for an invoice that passed all guards, a `dispatchFailed`
outcome means it failed for such an invoice, and an invoice with a null
due date can only be recorded as `skippedNoDueDate`. -/
def OutcomeSound (p : RunParams) (pr : Invoice × Outcome) : Prop :=
  (pr.2 = Outcome.sent → p.dispatchOk pr.1.id = true ∧ DispatchPre p pr.1) ∧
  (pr.2 = Outcome.dispatchFailed → p.dispatchOk pr.1.id = false ∧ DispatchPre p pr.1) ∧
  (pr.1.due_date = none → pr.2 = Outcome.skippedNoDueDate)

/-- Number of `sent` outcomes recorded so far. -/
def sentCount (outs : List (Invoice × Outcome)) : Nat :=
  (outs.filter fun pr => pr.2 == Outcome.sent).length

/-- Number of `dispatchFailed` outcomes recorded so far. -/
def failCount (outs : List (Invoice × Outcome)) : Nat :=
  (outs.filter fun pr => pr.2 == Outcome.dispatchFailed).length

theorem sentCount_append (a b : List (Invoice × Outcome)) :
    sentCount (a ++ b) = sentCount a + sentCount b := by
  simp [sentCount, List.filter_append]

theorem failCount_append (a b : List (Invoice × Outcome)) :
    failCount (a ++ b) = failCount a + failCount b := by
  simp [failCount, List.filter_append]

/-- Everything one iteration may append to the instrumentation traces, and
how the two aggregate counters move. -/
theorem processInvoice_step (p : RunParams) (profs : List (UserId × Profile))
    (inv : Invoice) (st : RunState) :
    ∃ os ls ds us,
      (resState (processInvoice p profs inv st)).outcomes = st.outcomes ++ os ∧
      (∀ pr ∈ os, pr.1 = inv ∧ OutcomeSound p pr) ∧
      (resState (processInvoice p profs inv st)).lookups = st.lookups ++ ls ∧
      (∀ j ∈ ls, j = inv ∧ j.due_date.isSome = true) ∧
      (resState (processInvoice p profs inv st)).dispatches = st.dispatches ++ ds ∧
      (∀ j ∈ ds, j = inv ∧ DispatchPre p j) ∧
      (resState (processInvoice p profs inv st)).updates = st.updates ++ us ∧
      (us = [] ∨ (us = [inv] ∧ p.dispatchOk inv.id = true)) ∧
      (st.remindersSent = sentCount st.outcomes →
        (resState (processInvoice p profs inv st)).remindersSent =
          sentCount (resState (processInvoice p profs inv st)).outcomes) ∧
      (st.logs.length = failCount st.outcomes →
        (resState (processInvoice p profs inv st)).logs.length =
          failCount (resState (processInvoice p profs inv st)).outcomes) := by
  cases hdec : decideInvoice p profs inv with
  | skip o =>
    have hres : resState (processInvoice p profs inv st) =
        { st with outcomes := st.outcomes ++ [(inv, o)] } := by
      unfold processInvoice
      rw [hdec]
      rfl
    have ho := decideInvoice_skip hdec
    have hosent : (o == Outcome.sent) = false := by
      rcases ho with rfl | rfl | rfl <;> rfl
    have hofail : (o == Outcome.dispatchFailed) = false := by
      rcases ho with rfl | rfl | rfl <;> rfl
    refine ⟨[(inv, o)], [], [], [], ?_⟩
    rw [hres]
    refine ⟨rfl, ?_, by simp, by simp, by simp, by simp, by simp, Or.inl rfl, ?_, ?_⟩
    · intro pr hpr
      rcases List.mem_singleton.mp hpr with rfl
      refine ⟨rfl, ?_, ?_, ?_⟩
      · intro hs
        have hs' : o = Outcome.sent := hs
        rw [hs'] at hosent
        simp at hosent
      · intro hs
        have hs' : o = Outcome.dispatchFailed := hs
        rw [hs'] at hofail
        simp at hofail
      · intro hdue
        have hh := decideInvoice_of_due_none p profs hdue
        rw [hdec] at hh
        simp only [Decision.skip.injEq] at hh
        show o = Outcome.skippedNoDueDate
        exact hh
    · intro hcnt
      show st.remindersSent = sentCount (st.outcomes ++ [(inv, o)])
      rw [hcnt, sentCount_append]
      simp [sentCount, hosent]
    · intro hcnt
      show st.logs.length = failCount (st.outcomes ++ [(inv, o)])
      rw [hcnt, failCount_append]
      simp [failCount, hofail]
  | lookupSkip =>
    have hres : resState (processInvoice p profs inv st) =
        { st with lookups := st.lookups ++ [inv],
                  outcomes := st.outcomes ++ [(inv, Outcome.skippedNoEmail)] } := by
      unfold processInvoice
      rw [hdec]
      rfl
    have hdue : inv.due_date.isSome = true := by
      refine decideInvoice_nonskip_due p profs ?_
      intro o h'
      rw [hdec] at h'
      exact Decision.noConfusion h'
    refine ⟨[(inv, Outcome.skippedNoEmail)], [inv], [], [], ?_⟩
    rw [hres]
    refine ⟨rfl, ?_, rfl, ?_, by simp, by simp, by simp, Or.inl rfl, ?_, ?_⟩
    · intro pr hpr
      rcases List.mem_singleton.mp hpr with rfl
      refine ⟨rfl, ?_, ?_, ?_⟩
      · intro hs
        exact Outcome.noConfusion (show Outcome.skippedNoEmail = Outcome.sent from hs)
      · intro hs
        exact Outcome.noConfusion (show Outcome.skippedNoEmail = Outcome.dispatchFailed from hs)
      · intro hn
        rw [hn] at hdue
        exact Bool.noConfusion hdue
    · intro j hj
      rcases List.mem_singleton.mp hj with rfl
      exact ⟨rfl, hdue⟩
    · intro hcnt
      show st.remindersSent = sentCount (st.outcomes ++ [(inv, Outcome.skippedNoEmail)])
      rw [hcnt, sentCount_append]
      simp [sentCount]
    · intro hcnt
      show st.logs.length = failCount (st.outcomes ++ [(inv, Outcome.skippedNoEmail)])
      rw [hcnt, failCount_append]
      simp [failCount]
  | throwAfterLookup msg =>
    have hres : resState (processInvoice p profs inv st) =
        { st with lookups := st.lookups ++ [inv] } := by
      unfold processInvoice
      rw [hdec]
      rfl
    have hdue : inv.due_date.isSome = true := by
      refine decideInvoice_nonskip_due p profs ?_
      intro o h'
      rw [hdec] at h'
      exact Decision.noConfusion h'
    refine ⟨[], [inv], [], [], ?_⟩
    rw [hres]
    refine ⟨by simp, by simp, rfl, ?_, by simp, by simp, by simp, Or.inl rfl,
      fun h => h, fun h => h⟩
    intro j hj
    rcases List.mem_singleton.mp hj with rfl
    exact ⟨rfl, hdue⟩
  | dispatched b =>
    obtain ⟨hb, hpre⟩ := decideInvoice_dispatched hdec
    have hdue : inv.due_date.isSome = true := by
      obtain ⟨d, hd, _⟩ := hpre
      rw [hd]
      rfl
    cases b with
    | true =>
      have hres : resState (processInvoice p profs inv st) =
          { st with
            lookups := st.lookups ++ [inv],
            dispatches := st.dispatches ++ [inv],
            updates := st.updates ++ [inv],
            invoices := if p.updateOk inv.id then applyUpdate p.now inv st.invoices
                        else st.invoices,
            remindersSent := st.remindersSent + 1,
            outcomes := st.outcomes ++ [(inv, Outcome.sent)] } := by
        unfold processInvoice
        rw [hdec]
        rfl
      refine ⟨[(inv, Outcome.sent)], [inv], [inv], [inv], ?_⟩
      rw [hres]
      refine ⟨rfl, ?_, rfl, ?_, rfl, ?_, rfl, Or.inr ⟨rfl, hb.symm⟩, ?_, ?_⟩
      · intro pr hpr
        rcases List.mem_singleton.mp hpr with rfl
        refine ⟨rfl, fun _ => ⟨hb.symm, hpre⟩, ?_, ?_⟩
        · intro hs
          exact Outcome.noConfusion (show Outcome.sent = Outcome.dispatchFailed from hs)
        · intro hn
          rw [hn] at hdue
          exact Bool.noConfusion hdue
      · intro j hj
        rcases List.mem_singleton.mp hj with rfl
        exact ⟨rfl, hdue⟩
      · intro j hj
        rcases List.mem_singleton.mp hj with rfl
        exact ⟨rfl, hpre⟩
      · intro hcnt
        show st.remindersSent + 1 = sentCount (st.outcomes ++ [(inv, Outcome.sent)])
        rw [hcnt, sentCount_append]
        simp [sentCount]
      · intro hcnt
        show st.logs.length = failCount (st.outcomes ++ [(inv, Outcome.sent)])
        rw [hcnt, failCount_append]
        simp [failCount]
    | false =>
      have hres : resState (processInvoice p profs inv st) =
          { st with
            lookups := st.lookups ++ [inv],
            dispatches := st.dispatches ++ [inv],
            logs := st.logs ++ ["Reminder e-mail error: Resend error"],
            outcomes := st.outcomes ++ [(inv, Outcome.dispatchFailed)] } := by
        unfold processInvoice
        rw [hdec]
        rfl
      refine ⟨[(inv, Outcome.dispatchFailed)], [inv], [inv], [], ?_⟩
      rw [hres]
      refine ⟨rfl, ?_, rfl, ?_, rfl, ?_, by simp, Or.inl rfl, ?_, ?_⟩
      · intro pr hpr
        rcases List.mem_singleton.mp hpr with rfl
        refine ⟨rfl, ?_, fun _ => ⟨hb.symm, hpre⟩, ?_⟩
        · intro hs
          exact Outcome.noConfusion (show Outcome.dispatchFailed = Outcome.sent from hs)
        · intro hn
          rw [hn] at hdue
          exact Bool.noConfusion hdue
      · intro j hj
        rcases List.mem_singleton.mp hj with rfl
        exact ⟨rfl, hdue⟩
      · intro j hj
        rcases List.mem_singleton.mp hj with rfl
        exact ⟨rfl, hpre⟩
      · intro hcnt
        show st.remindersSent = sentCount (st.outcomes ++ [(inv, Outcome.dispatchFailed)])
        rw [hcnt, sentCount_append]
        simp [sentCount]
      · intro hcnt
        show (st.logs ++ ["Reminder e-mail error: Resend error"]).length =
          failCount (st.outcomes ++ [(inv, Outcome.dispatchFailed)])
        rw [List.length_append, hcnt, failCount_append]
        simp [failCount]

theorem runLoop_invoices_rel (p : RunParams) (profs : List (UserId × Profile)) :
    ∀ (l : List Invoice) (st : RunState),
      List.Forall₂ (Touched p l) st.invoices (resState (runLoop p profs l st)).invoices := by
  intro l
  induction l with
  | nil => intro st; exact forall₂_touched_refl ..
  | cons inv rest ih =>
    intro st
    have hsub1 : ∀ x ∈ ([inv] : List Invoice), x ∈ inv :: rest := by
      intro x hx
      rcases List.mem_singleton.mp hx with rfl
      exact List.mem_cons_self _ _
    have hsub2 : ∀ x ∈ rest, x ∈ inv :: rest := fun x hx => List.mem_cons_of_mem _ hx
    cases hp : processInvoice p profs inv st with
    | error st1 =>
      have hstep := processInvoice_invoices_rel p profs inv st
      rw [hp] at hstep
      have hrun : runLoop p profs (inv :: rest) st = Except.error st1 := by
        simp [runLoop, hp]
      rw [hrun]
      exact hstep.imp fun a b h => touched_mono hsub1 h
    | ok st1 =>
      have hstep := processInvoice_invoices_rel p profs inv st
      rw [hp] at hstep
      have hrun : runLoop p profs (inv :: rest) st = runLoop p profs rest st1 := by
        simp [runLoop, hp]
      rw [hrun]
      exact forall₂_touched_trans (hstep.imp fun a b h => touched_mono hsub1 h)
        ((ih st1).imp fun a b h => touched_mono hsub2 h)

end InvoiceReminder

namespace InvoiceReminder

/-- Loop-level accumulation of the instrumentation traces and the two
aggregate counters. -/
theorem runLoop_traces (p : RunParams) (profs : List (UserId × Profile)) :
    ∀ (l : List Invoice) (st : RunState),
      ∃ os ls ds us,
        (resState (runLoop p profs l st)).outcomes = st.outcomes ++ os ∧
        (∀ pr ∈ os, pr.1 ∈ l ∧ OutcomeSound p pr) ∧
        (resState (runLoop p profs l st)).lookups = st.lookups ++ ls ∧
        (∀ j ∈ ls, j ∈ l ∧ j.due_date.isSome = true) ∧
        (resState (runLoop p profs l st)).dispatches = st.dispatches ++ ds ∧
        (∀ j ∈ ds, j ∈ l ∧ DispatchPre p j) ∧
        (resState (runLoop p profs l st)).updates = st.updates ++ us ∧
        us.Sublist l ∧ (∀ j ∈ us, p.dispatchOk j.id = true) ∧
        (st.remindersSent = sentCount st.outcomes →
          (resState (runLoop p profs l st)).remindersSent =
            sentCount (resState (runLoop p profs l st)).outcomes) ∧
        (st.logs.length = failCount st.outcomes →
          (resState (runLoop p profs l st)).logs.length =
            failCount (resState (runLoop p profs l st)).outcomes) := by
  intro l
  induction l with
  | nil =>
    intro st
    exact ⟨[], [], [], [], by simp [runLoop, resState], by simp,
      by simp [runLoop, resState], by simp, by simp [runLoop, resState], by simp,
      by simp [runLoop, resState], List.nil_sublist _, by simp,
      fun h => by simpa [runLoop, resState] using h,
      fun h => by simpa [runLoop, resState] using h⟩
  | cons inv rest ih =>
    intro st
    obtain ⟨os1, ls1, ds1, us1, ho1, hop1, hl1, hlp1, hd1, hdp1, hu1, hup1, hc1, hg1⟩ :=
      processInvoice_step p profs inv st
    cases hp : processInvoice p profs inv st with
    | error st1 =>
      rw [hp] at ho1 hl1 hd1 hu1 hc1 hg1
      simp only [resState] at ho1 hl1 hd1 hu1 hc1 hg1
      have hrun : runLoop p profs (inv :: rest) st = Except.error st1 := by
        simp [runLoop, hp]
      rw [hrun]
      simp only [resState]
      refine ⟨os1, ls1, ds1, us1, ho1, ?_, hl1, ?_, hd1, ?_, hu1, ?_, ?_, hc1, hg1⟩
      · intro pr hpr
        obtain ⟨h1, h2⟩ := hop1 pr hpr
        exact ⟨h1 ▸ List.mem_cons_self _ _, h2⟩
      · intro j hj
        obtain ⟨h1, h2⟩ := hlp1 j hj
        exact ⟨h1 ▸ List.mem_cons_self _ _, h2⟩
      · intro j hj
        obtain ⟨h1, h2⟩ := hdp1 j hj
        exact ⟨h1 ▸ List.mem_cons_self _ _, h2⟩
      · rcases hup1 with rfl | ⟨rfl, _⟩
        · exact List.nil_sublist _
        · exact List.Sublist.cons₂ inv (List.nil_sublist rest)
      · intro j hj
        rcases hup1 with rfl | ⟨rfl, hok⟩
        · simp at hj
        · rcases List.mem_singleton.mp hj with rfl
          exact hok
    | ok st1 =>
      rw [hp] at ho1 hl1 hd1 hu1 hc1 hg1
      simp only [resState] at ho1 hl1 hd1 hu1 hc1 hg1
      obtain ⟨os2, ls2, ds2, us2, ho2, hop2, hl2, hlp2, hd2, hdp2, hu2, hsub2, hok2, hc2, hg2⟩ :=
        ih st1
      have hrun : runLoop p profs (inv :: rest) st = runLoop p profs rest st1 := by
        simp [runLoop, hp]
      rw [hrun]
      refine ⟨os1 ++ os2, ls1 ++ ls2, ds1 ++ ds2, us1 ++ us2, ?_, ?_, ?_, ?_, ?_, ?_, ?_,
        ?_, ?_, ?_, ?_⟩
      · rw [ho2, ho1, List.append_assoc]
      · intro pr hpr
        rcases List.mem_append.mp hpr with h | h
        · obtain ⟨h1, h2⟩ := hop1 pr h
          exact ⟨h1 ▸ List.mem_cons_self _ _, h2⟩
        · obtain ⟨h1, h2⟩ := hop2 pr h
          exact ⟨List.mem_cons_of_mem _ h1, h2⟩
      · rw [hl2, hl1, List.append_assoc]
      · intro j hj
        rcases List.mem_append.mp hj with h | h
        · obtain ⟨h1, h2⟩ := hlp1 j h
          exact ⟨h1 ▸ List.mem_cons_self _ _, h2⟩
        · obtain ⟨h1, h2⟩ := hlp2 j h
          exact ⟨List.mem_cons_of_mem _ h1, h2⟩
      · rw [hd2, hd1, List.append_assoc]
      · intro j hj
        rcases List.mem_append.mp hj with h | h
        · obtain ⟨h1, h2⟩ := hdp1 j h
          exact ⟨h1 ▸ List.mem_cons_self _ _, h2⟩
        · obtain ⟨h1, h2⟩ := hdp2 j h
          exact ⟨List.mem_cons_of_mem _ h1, h2⟩
      · rw [hu2, hu1, List.append_assoc]
      · rcases hup1 with rfl | ⟨rfl, _⟩
        · exact (hsub2).cons inv
        · exact List.Sublist.cons₂ inv hsub2
      · intro j hj
        rcases List.mem_append.mp hj with h | h
        · rcases hup1 with rfl | ⟨rfl, hok⟩
          · simp at h
          · rcases List.mem_singleton.mp h with rfl
            exact hok
        · exact hok2 j h
      · intro h
        exact hc2 (hc1 h)
      · intro h
        exact hg2 (hg1 h)

end InvoiceReminder

namespace InvoiceReminder

theorem processInvoice_ok_of_amount (p : RunParams) (profs : List (UserId × Profile))
    {inv : Invoice} (st : RunState) (ha : inv.amount.isSome = true) :
    ∃ st1, processInvoice p profs inv st = Except.ok st1 := by
  cases hdec : decideInvoice p profs inv with
  | skip o => exact ⟨_, by unfold processInvoice; rw [hdec]; rfl⟩
  | lookupSkip => exact ⟨_, by unfold processInvoice; rw [hdec]; rfl⟩
  | throwAfterLookup msg =>
    have := decideInvoice_throw_amount hdec
    rw [this] at ha
    exact Bool.noConfusion ha
  | dispatched b =>
    cases b with
    | true => exact ⟨_, by unfold processInvoice; rw [hdec]; rfl⟩
    | false => exact ⟨_, by unfold processInvoice; rw [hdec]; rfl⟩

/-- If every invoice of the snapshot has a present amount, the loop never
throws: it runs to completion. -/
theorem runLoop_ok_of_amounts (p : RunParams) (profs : List (UserId × Profile)) :
    ∀ (l : List Invoice) (st : RunState), (∀ j ∈ l, j.amount.isSome = true) →
      ∃ fin, runLoop p profs l st = Except.ok fin := by
  intro l
  induction l with
  | nil => intro st _; exact ⟨st, rfl⟩
  | cons inv rest ih =>
    intro st ha
    obtain ⟨st1, hp⟩ := processInvoice_ok_of_amount p profs st
      (ha inv (List.mem_cons_self _ _))
    obtain ⟨fin, hrest⟩ := ih st1 (fun j hj => ha j (List.mem_cons_of_mem _ hj))
    exact ⟨fin, by simp [runLoop, hp, hrest]⟩

theorem processInvoice_lookup_mem (p : RunParams) (profs : List (UserId × Profile))
    {inv : Invoice} (st : RunState)
    (h : ∀ o, decideInvoice p profs inv ≠ Decision.skip o) :
    inv ∈ (resState (processInvoice p profs inv st)).lookups := by
  cases hdec : decideInvoice p profs inv with
  | skip o => exact absurd hdec (h o)
  | lookupSkip =>
    have : (resState (processInvoice p profs inv st)).lookups = st.lookups ++ [inv] := by
      unfold processInvoice; rw [hdec]; rfl
    rw [this]
    exact List.mem_append_right _ (List.mem_singleton.mpr rfl)
  | throwAfterLookup msg =>
    have : (resState (processInvoice p profs inv st)).lookups = st.lookups ++ [inv] := by
      unfold processInvoice; rw [hdec]; rfl
    rw [this]
    exact List.mem_append_right _ (List.mem_singleton.mpr rfl)
  | dispatched b =>
    cases b with
    | true =>
      have : (resState (processInvoice p profs inv st)).lookups = st.lookups ++ [inv] := by
        unfold processInvoice; rw [hdec]; rfl
      rw [this]
      exact List.mem_append_right _ (List.mem_singleton.mpr rfl)
    | false =>
      have : (resState (processInvoice p profs inv st)).lookups = st.lookups ++ [inv] := by
        unfold processInvoice; rw [hdec]; rfl
      rw [this]
      exact List.mem_append_right _ (List.mem_singleton.mpr rfl)

/-- In a run that completes, every invoice of the snapshot that passes the
due-date window and the cap guard reaches the recipient-resolution step. -/
theorem runLoop_eligible_lookup (p : RunParams) (profs : List (UserId × Profile)) :
    ∀ (l : List Invoice) (st : RunState) (fin : RunState),
      runLoop p profs l st = Except.ok fin →
      ∀ inv ∈ l, ∀ d, inv.due_date = some d →
        ¬(d > p.now ∧ d - p.now > sevenDaysMs) →
        capReached inv.reminder_count = false →
        inv ∈ fin.lookups := by
  intro l
  induction l with
  | nil =>
    intro st fin _ inv hm
    exact absurd hm (List.not_mem_nil inv)
  | cons inv0 rest ih =>
    intro st fin hrun inv hm d hd hw hc
    cases hp : processInvoice p profs inv0 st with
    | error st1 =>
      rw [show runLoop p profs (inv0 :: rest) st = Except.error st1 by simp [runLoop, hp]]
        at hrun
      exact Except.noConfusion hrun
    | ok st1 =>
      rw [show runLoop p profs (inv0 :: rest) st = runLoop p profs rest st1 by
        simp [runLoop, hp]] at hrun
      rcases List.mem_cons.mp hm with rfl | hmrest
      · have hmem : inv ∈ st1.lookups := by
          have hns := decideInvoice_eligible_not_skip p profs hd hw hc
          have := processInvoice_lookup_mem p profs st hns
          rw [hp] at this
          exact this
        obtain ⟨_, _, _, _, _, _, hl2, _, _, _, _, _, _, _, _⟩ := runLoop_traces p profs rest st1
        rw [hrun] at hl2
        simp only [resState] at hl2
        rw [hl2]
        exact List.mem_append_left _ hmem
      · exact ih st1 fin hrun inv hmrest d hd hw hc

/-- Stored rows whose id cannot have been touched (no snapshot invoice with
that id passes all guards and both oracles) keep exactly their old values. -/
theorem forall₂_touched_filter {p : RunParams} {l : List Invoice} {x : InvoiceId}
    (hx : ∀ inv ∈ l, inv.id = x →
      ¬(inv.due_date.isSome = true ∧ capReached inv.reminder_count = false ∧
        p.dispatchOk inv.id = true ∧ p.updateOk inv.id = true)) :
    ∀ {l₁ l₂ : List Invoice}, List.Forall₂ (Touched p l) l₁ l₂ →
      l₂.filter (fun j => j.id == x) = l₁.filter (fun j => j.id == x) := by
  intro l₁ l₂ h
  induction h with
  | nil => rfl
  | @cons a b l1 l2 hab hrest ih =>
    rcases hab with hba | ⟨inv, hm, hid, hdue, hcap, hdk, huk, hovw⟩
    · rw [hba]
      by_cases hax : a.id = x <;> simp [List.filter_cons, hax, ih]
    · rw [hovw]
      by_cases hax : a.id = x
      · exact absurd ⟨hdue, hcap, hdk, huk⟩ (hx inv hm (hid.trans hax))
      · simp [List.filter_cons, hax, ih, ovw_id]

theorem forall₂_mem_right {R : Invoice → Invoice → Prop} :
    ∀ {l₁ l₂ : List Invoice}, List.Forall₂ R l₁ l₂ → ∀ b ∈ l₂, ∃ a ∈ l₁, R a b := by
  intro l₁ l₂ h
  induction h with
  | nil => intro b hb; exact absurd hb (List.not_mem_nil b)
  | @cons a b l1 l2 hab hrest ih =>
    intro c hc
    rcases List.mem_cons.mp hc with rfl | hc'
    · exact ⟨a, List.mem_cons_self _ _, hab⟩
    · obtain ⟨a', ha', hr⟩ := ih c hc'
      exact ⟨a', List.mem_cons_of_mem _ ha', hr⟩

theorem mem_snapshot {db : Store} {j : Invoice} :
    j ∈ snapshot db ↔ j ∈ db.invoices ∧ j.status = "open" := by
  simp [snapshot, List.mem_filter]

theorem capReached_false_le {rc : Option Nat} (h : capReached rc = false) :
    rc.getD 0 ≤ 2 := by
  cases rc with
  | none => exact Nat.zero_le 2
  | some n =>
    simp only [Option.getD_some]
    by_cases h0 : n = 0
    · omega
    · by_cases h3 : 3 ≤ n
      · exfalso
        simp [capReached, h0, h3] at h
      · omega

theorem touched_rcLe3 {p : RunParams} {l : List Invoice} {a b : Invoice}
    (ha : rcLe3 a) (h : Touched p l a b) : rcLe3 b := by
  rcases h with rfl | ⟨inv, _, _, _, hcap, _, _, rfl⟩
  · exact ha
  · have := capReached_false_le hcap
    simp only [rcLe3, ovw, Option.getD_some]
    omega

theorem serveRun_of_bulk_err {p : RunParams} {db : Store} {msg : String}
    (h : p.bulkReadError = some msg) :
    serveRun p db = (db, Response.err msg, initState db) := by
  unfold serveRun
  rw [h]

theorem serveRun_of_loop_ok {p : RunParams} {db : Store} {st : RunState}
    (h : p.bulkReadError = none)
    (hl : runLoop p db.profiles (snapshot db) (initState db) = Except.ok st) :
    serveRun p db = ({ db with invoices := st.invoices }, Response.ok st.remindersSent, st) := by
  unfold serveRun
  rw [h, hl]

theorem serveRun_of_loop_err {p : RunParams} {db : Store} {st : RunState}
    (h : p.bulkReadError = none)
    (hl : runLoop p db.profiles (snapshot db) (initState db) = Except.error st) :
    serveRun p db = ({ db with invoices := st.invoices },
      Response.err "TypeError: cannot read toFixed of null", st) := by
  unfold serveRun
  rw [h, hl]

/-- The final loop state of a run, whether it completed or threw. -/
theorem serveRun_state {p : RunParams} (db : Store) (h : p.bulkReadError = none) :
    (serveRun p db).2.2 = resState (runLoop p db.profiles (snapshot db) (initState db)) ∧
    (serveRun p db).1.invoices = (serveRun p db).2.2.invoices ∧
    (serveRun p db).1.profiles = db.profiles := by
  cases hl : runLoop p db.profiles (snapshot db) (initState db) with
  | ok st => rw [serveRun_of_loop_ok h hl]; exact ⟨rfl, rfl, rfl⟩
  | error st => rw [serveRun_of_loop_err h hl]; exact ⟨rfl, rfl, rfl⟩

end InvoiceReminder

namespace InvoiceReminder

theorem applyRun_invoices_rel (p : RunParams) (db : Store) :
    List.Forall₂ (Touched p (snapshot db)) db.invoices (applyRun p db).invoices := by
  cases hb : p.bulkReadError with
  | some msg =>
    show List.Forall₂ (Touched p (snapshot db)) db.invoices (serveRun p db).1.invoices
    rw [serveRun_of_bulk_err hb]
    exact forall₂_touched_refl ..
  | none =>
    obtain ⟨h1, h2, _⟩ := serveRun_state db hb
    show List.Forall₂ (Touched p (snapshot db)) db.invoices (serveRun p db).1.invoices
    rw [h2, h1]
    exact runLoop_invoices_rel p db.profiles (snapshot db) (initState db)

theorem applyRun_rcLe3 (p : RunParams) (db : Store)
    (h : ∀ j ∈ db.invoices, rcLe3 j) : ∀ j ∈ (applyRun p db).invoices, rcLe3 j := by
  intro j hj
  obtain ⟨a, ha, hr⟩ := forall₂_mem_right (applyRun_invoices_rel p db) j hj
  exact touched_rcLe3 (h a ha) hr

theorem applyRuns_rcLe3 : ∀ (runs : List RunParams) (db : Store),
    (∀ j ∈ db.invoices, rcLe3 j) → ∀ j ∈ (applyRuns runs db).invoices, rcLe3 j := by
  intro runs
  induction runs with
  | nil => intro db h; exact h
  | cons p ps ih =>
    intro db h
    exact ih (applyRun p db) (applyRun_rcLe3 p db h)

theorem mem_id_inj : ∀ {l : List Invoice}, (l.map Invoice.id).Nodup →
    ∀ {a b : Invoice}, a ∈ l → b ∈ l → a.id = b.id → a = b := by
  intro l
  induction l with
  | nil => intro _ a b ha; exact absurd ha (List.not_mem_nil a)
  | cons x xs ih =>
    intro hnd a b ha hb hid
    rw [List.map_cons, List.nodup_cons] at hnd
    obtain ⟨hx, hnd'⟩ := hnd
    rcases List.mem_cons.mp ha with rfl | ha' <;> rcases List.mem_cons.mp hb with rfl | hb'
    · rfl
    · exact absurd (by rw [hid]; exact List.mem_map_of_mem Invoice.id hb') hx
    · exact absurd (by rw [← hid]; exact List.mem_map_of_mem Invoice.id ha') hx
    · exact ih hnd' ha' hb' hid

theorem snapshot_sublist (db : Store) : (snapshot db).Sublist db.invoices :=
  List.filter_sublist db.invoices

theorem snapshot_id_nodup {db : Store} (h : (db.invoices.map Invoice.id).Nodup) :
    ((snapshot db).map Invoice.id).Nodup :=
  ((snapshot_sublist db).map Invoice.id).nodup h

theorem forall₂_imp_mem {R S : Invoice → Invoice → Prop} :
    ∀ {l₁ l₂ : List Invoice}, List.Forall₂ R l₁ l₂ →
      (∀ a ∈ l₁, ∀ b, R a b → S a b) → List.Forall₂ S l₁ l₂ := by
  intro l₁ l₂ h
  induction h with
  | nil => intro _; exact List.Forall₂.nil
  | @cons a b l1 l2 hab hrest ih =>
    intro hs
    exact List.Forall₂.cons (hs a (List.mem_cons_self _ _) b hab)
      (ih fun a' ha' b' hr => hs a' (List.mem_cons_of_mem _ ha') b' hr)

theorem capReached_false_iff (rc : Option Nat) :
    capReached rc = false ↔ rc.getD 0 < 3 := by
  cases rc with
  | none => simp [capReached]
  | some n =>
    simp only [capReached, Option.getD_some]
    by_cases h0 : n = 0 <;> by_cases h3 : 3 ≤ n <;>
      simp [h0, h3] <;> omega

/-- Pointwise evolution of the stored rows across one run, under unique ids:
a row is either untouched, or (when it was dispatched successfully with its
cap unreached and its update succeeded) its `reminder_count` moves up by
exactly one and `reminder_sent_at` is set to the run time. -/
theorem applyRun_pointwise (p : RunParams) (db : Store)
    (hnd : (db.invoices.map Invoice.id).Nodup) :
    List.Forall₂ (fun a b => b = a ∨ (a.reminder_count.getD 0 < 3 ∧
        p.dispatchOk a.id = true ∧
        b.reminder_count = some (a.reminder_count.getD 0 + 1) ∧
        b.reminder_sent_at = some p.now))
      db.invoices (applyRun p db).invoices := by
  refine forall₂_imp_mem (applyRun_invoices_rel p db) ?_
  intro a ha b hr
  rcases hr with rfl | ⟨inv, hm, hid, _, hcap, hdk, _, rfl⟩
  · exact Or.inl rfl
  · have hinv : inv = a :=
      mem_id_inj hnd ((mem_snapshot).mp hm).1 ha hid
    subst hinv
    exact Or.inr ⟨(capReached_false_iff _).mp hcap, hdk, rfl, rfl⟩

end InvoiceReminder

namespace InvoiceReminder

theorem window_le {d n c : Int} (hc : 0 ≤ c) (h : ¬(d > n ∧ d - n > c)) : d ≤ n + c := by
  by_cases hdn : d > n
  · have h2 : ¬(d - n > c) := fun hgt => h ⟨hdn, hgt⟩
    omega
  · omega

theorem window_not {d n c : Int} (h : d ≤ n + c) : ¬(d > n ∧ d - n > c) := by
  intro hcon
  obtain ⟨h1, h2⟩ := hcon
  omega

theorem sevenDaysMs_nonneg : (0 : Int) ≤ sevenDaysMs := by decide

/-- C6: if the bulk invoice read fails, the run aborts fatally: the store is
untouched, the caller gets an error result with the diagnostic message and a
non-success (500) status, and no dispatch or update was attempted. -/
theorem C6_bulk_read_failure_aborts (p : RunParams) (db : Store) (msg : String)
    (hb : p.bulkReadError = some msg) :
    (serveRun p db).1 = db ∧ (serveRun p db).2.1 = Response.err msg ∧
    (serveRun p db).2.2.dispatches = [] ∧ (serveRun p db).2.2.updates = [] ∧
    (serveRun p db).2.2.outcomes = [] := by
  rw [serveRun_of_bulk_err hb]
  exact ⟨rfl, rfl, rfl, rfl, rfl⟩

def c6p : RunParams :=
  { now := 0, dispatchOk := fun _ => true, updateOk := fun _ => true,
    bulkReadError := some "connection refused" }

def c6inv : Invoice :=
  { id := 1, user_id := 10, amount := some 5000, due_date := some (-5),
    payment_reference := "r1", reminder_sent_at := none, reminder_count := some 0,
    status := "open" }

def c6prof : Profile :=
  { email := some "u@example.com", first_name := some "Jan", last_name := some "Doe" }

def c6db : Store := { invoices := [c6inv], profiles := [(10, c6prof)] }

theorem C6_witness :
    c6p.bulkReadError = some "connection refused" ∧
    ((serveRun c6p c6db).1 = c6db ∧
     (serveRun c6p c6db).2.1 = Response.err "connection refused" ∧
     (serveRun c6p c6db).2.2.dispatches = [] ∧ (serveRun c6p c6db).2.2.updates = [] ∧
     (serveRun c6p c6db).2.2.outcomes = []) :=
  ⟨rfl, C6_bulk_read_failure_aborts c6p c6db "connection refused" rfl⟩

/-- C3: a reminder dispatch is attempted only for an invoice whose status is
`open`, whose reminder count is below 3, and whose due date is present and at
most 7 days in the future. -/
theorem C3_dispatch_only_if_eligible (p : RunParams) (db : Store) (j : Invoice)
    (hj : j ∈ (serveRun p db).2.2.dispatches) :
    j ∈ db.invoices ∧ j.status = "open" ∧ j.reminder_count.getD 0 < 3 ∧
    ∃ d, j.due_date = some d ∧ d ≤ p.now + sevenDaysMs := by
  cases hb : p.bulkReadError with
  | some msg =>
    rw [serveRun_of_bulk_err hb] at hj
    exact absurd hj (List.not_mem_nil j)
  | none =>
    obtain ⟨h1, _, _⟩ := serveRun_state db hb
    rw [h1] at hj
    obtain ⟨os, ls, ds, us, hc1, hc2, hc3, hc4, hc5, hc6, hc7, hc8, hc9, hc10, hc11⟩ :=
      runLoop_traces p db.profiles (snapshot db) (initState db)
    rw [hc5] at hj
    simp only [initState, List.nil_append] at hj
    obtain ⟨hmem, d, hd, hw, hcap⟩ := hc6 j hj
    obtain ⟨hdb, hst⟩ := mem_snapshot.mp hmem
    exact ⟨hdb, hst, (capReached_false_iff _).mp hcap, d, hd,
      window_le sevenDaysMs_nonneg hw⟩

def c3p : RunParams :=
  { now := 0, dispatchOk := fun _ => true, updateOk := fun _ => true,
    bulkReadError := none }

def c3inv : Invoice :=
  { id := 1, user_id := 10, amount := some 5000, due_date := some 100,
    payment_reference := "r1", reminder_sent_at := none, reminder_count := some 2,
    status := "open" }

def c3prof : Profile :=
  { email := some "u@example.com", first_name := some "Jan", last_name := some "Doe" }

def c3db : Store := { invoices := [c3inv], profiles := [(10, c3prof)] }

theorem c3_dispatches_eq : (serveRun c3p c3db).2.2.dispatches = [c3inv] := by decide

theorem C3_witness :
    c3inv ∈ (serveRun c3p c3db).2.2.dispatches ∧
    (c3inv ∈ c3db.invoices ∧ c3inv.status = "open" ∧
     c3inv.reminder_count.getD 0 < 3 ∧
     ∃ d, c3inv.due_date = some d ∧ d ≤ c3p.now + sevenDaysMs) :=
  ⟨by rw [c3_dispatches_eq]; exact List.mem_singleton.mpr rfl,
   C3_dispatch_only_if_eligible c3p c3db c3inv
     (by rw [c3_dispatches_eq]; exact List.mem_singleton.mpr rfl)⟩

end InvoiceReminder

namespace InvoiceReminder

/-- C4 (amended): in a run that completes successfully (no uncaught
composition error aborted it), every open invoice with a present due date at
most 7 days in the future and an unreached cap reaches the
recipient-resolution step. -/
theorem C4_amended_eligible_reaches_lookup (p : RunParams) (db : Store) (n : Nat)
    (hok : (serveRun p db).2.1 = Response.ok n) (inv : Invoice)
    (hm : inv ∈ db.invoices) (hst : inv.status = "open") (d : Int)
    (hd : inv.due_date = some d) (hwin : d ≤ p.now + sevenDaysMs)
    (hcap : inv.reminder_count.getD 0 < 3) :
    inv ∈ (serveRun p db).2.2.lookups := by
  cases hb : p.bulkReadError with
  | some msg =>
    rw [serveRun_of_bulk_err hb] at hok
    exact Response.noConfusion hok
  | none =>
    cases hl : runLoop p db.profiles (snapshot db) (initState db) with
    | error st =>
      rw [serveRun_of_loop_err hb hl] at hok
      exact Response.noConfusion hok
    | ok st =>
      rw [serveRun_of_loop_ok hb hl]
      exact runLoop_eligible_lookup p db.profiles (snapshot db) (initState db) st hl
        inv (mem_snapshot.mpr ⟨hm, hst⟩) d hd (window_not hwin)
        ((capReached_false_iff _).mpr hcap)

def c4p : RunParams :=
  { now := 0, dispatchOk := fun _ => true, updateOk := fun _ => true,
    bulkReadError := none }

def c4bad : Invoice :=
  { id := 1, user_id := 10, amount := none, due_date := some (-5),
    payment_reference := "r1", reminder_sent_at := none, reminder_count := some 0,
    status := "open" }

def c4good : Invoice :=
  { id := 2, user_id := 10, amount := some 4200, due_date := some 100,
    payment_reference := "r2", reminder_sent_at := none, reminder_count := some 0,
    status := "open" }

def c4prof : Profile :=
  { email := some "u@example.com", first_name := some "Jan", last_name := some "Doe" }

def c4db : Store := { invoices := [c4bad, c4good], profiles := [(10, c4prof)] }

theorem c4_lookups_eq : (serveRun c4p c4db).2.2.lookups = [c4bad] := by decide

/-- C4 counterexample: `c4good` is open, due within the window, with an
unreached cap, yet it never reaches the recipient-resolution step, because a
prior invoice with a null amount threw an uncaught TypeError and aborted the
run. -/
theorem C4_counterexample :
    c4good ∈ c4db.invoices ∧ c4good.status = "open" ∧
    c4good.due_date = some 100 ∧ ((100 : Int) ≤ c4p.now + sevenDaysMs) ∧
    c4good.reminder_count.getD 0 < 3 ∧
    c4good ∉ (serveRun c4p c4db).2.2.lookups := by
  refine ⟨by decide, by decide, by decide, by decide, by decide, ?_⟩
  rw [c4_lookups_eq]
  intro h
  rcases List.mem_singleton.mp h with h1
  exact absurd (congrArg Invoice.id h1) (by decide)

def c4wdb : Store := { invoices := [c4good], profiles := [(10, c4prof)] }

theorem C4_witness :
    (serveRun c4p c4wdb).2.1 = Response.ok 1 ∧
    c4good ∈ c4wdb.invoices ∧ c4good.status = "open" ∧
    c4good.due_date = some 100 ∧ ((100 : Int) ≤ c4p.now + sevenDaysMs) ∧
    c4good.reminder_count.getD 0 < 3 ∧
    c4good ∈ (serveRun c4p c4wdb).2.2.lookups :=
  ⟨by decide, by decide, by decide, by decide, by decide, by decide,
   C4_amended_eligible_reaches_lookup c4p c4wdb 1 (by decide) c4good (by decide)
     (by decide) 100 (by decide) (by decide) (by decide)⟩

/-- C1 (amended): per-invoice isolation holds for recipient-lookup failures,
missing emails, and dispatch failures — when the bulk read succeeds and every
invoice has a present amount the run always completes with a success result.
(A missing amount, however, throws during composition outside the per-invoice
try/catch and aborts the whole run; see the counterexample.) -/
theorem C1_amended_no_abort (p : RunParams) (db : Store)
    (hb : p.bulkReadError = none)
    (ha : ∀ j ∈ db.invoices, j.amount.isSome = true) :
    ∃ n, (serveRun p db).2.1 = Response.ok n := by
  obtain ⟨fin, hl⟩ := runLoop_ok_of_amounts p db.profiles (snapshot db) (initState db)
    (fun j hj => ha j ((snapshot_sublist db).subset hj))
  rw [serveRun_of_loop_ok hb hl]
  exact ⟨fin.remindersSent, rfl⟩

def c1p : RunParams :=
  { now := 0, dispatchOk := fun _ => true, updateOk := fun _ => true,
    bulkReadError := none }

def c1bad : Invoice :=
  { id := 1, user_id := 10, amount := none, due_date := some (-5),
    payment_reference := "r1", reminder_sent_at := none, reminder_count := some 0,
    status := "open" }

def c1prof : Profile :=
  { email := some "u@example.com", first_name := some "Jan", last_name := some "Doe" }

def c1db : Store := { invoices := [c1bad], profiles := [(10, c1prof)] }

/-- C1 counterexample: a single open invoice with a missing (null) amount —
a composition failure — is not caught per-invoice: the whole run aborts with
an error (500) result instead of skipping the invoice. -/
theorem C1_counterexample :
    c1bad ∈ c1db.invoices ∧ c1bad.status = "open" ∧ c1bad.amount = none ∧
    (serveRun c1p c1db).2.1 = Response.err "TypeError: cannot read toFixed of null" := by
  refine ⟨?_, by decide, by decide, by decide⟩
  exact List.mem_singleton.mpr rfl

def c1wp : RunParams :=
  { now := 0, dispatchOk := fun i => !(i == 2), updateOk := fun _ => true,
    bulkReadError := none }

def c1w1 : Invoice :=
  { id := 1, user_id := 10, amount := some 5000, due_date := some (-5),
    payment_reference := "r1", reminder_sent_at := none, reminder_count := some 0,
    status := "open" }

def c1w2 : Invoice :=
  { id := 2, user_id := 10, amount := some 6000, due_date := some 100,
    payment_reference := "r2", reminder_sent_at := none, reminder_count := some 1,
    status := "open" }

def c1w3 : Invoice :=
  { id := 3, user_id := 99, amount := some 7000, due_date := some 100,
    payment_reference := "r3", reminder_sent_at := none, reminder_count := none,
    status := "open" }

def c1wdb : Store := { invoices := [c1w1, c1w2, c1w3], profiles := [(10, c1prof)] }

theorem C1_witness :
    c1wp.bulkReadError = none ∧ (∀ j ∈ c1wdb.invoices, j.amount.isSome = true) ∧
    ∃ n, (serveRun c1wp c1wdb).2.1 = Response.ok n :=
  ⟨rfl, by decide, C1_amended_no_abort c1wp c1wdb rfl (by decide)⟩

end InvoiceReminder

namespace InvoiceReminder

/-- C5: when the dispatch for an invoice fails, every stored row with that
invoice id keeps its `reminder_count` and `reminder_sent_at` (the rows with
that id are exactly as before the run), no `sent` outcome is recorded for
that id, and `remindersSent` counts exactly the `sent` outcomes — so the
failed invoice is not counted. -/
theorem C5_dispatch_failure_unchanged (p : RunParams) (db : Store) (inv : Invoice)
    (hm : inv ∈ db.invoices) (hdk : p.dispatchOk inv.id = false) :
    ((serveRun p db).1.invoices.filter (fun j => j.id == inv.id) =
      db.invoices.filter (fun j => j.id == inv.id)) ∧
    (∀ pr ∈ (serveRun p db).2.2.outcomes, pr.1.id = inv.id → pr.2 ≠ Outcome.sent) ∧
    (serveRun p db).2.2.remindersSent = sentCount (serveRun p db).2.2.outcomes := by
  have hfilter : (serveRun p db).1.invoices.filter (fun j => j.id == inv.id) =
      db.invoices.filter (fun j => j.id == inv.id) := by
    refine forall₂_touched_filter ?_ (applyRun_invoices_rel p db)
    intro inv' _ hid hconj
    rw [hid] at hconj
    rw [hconj.2.2.1] at hdk
    exact Bool.noConfusion hdk
  refine ⟨hfilter, ?_⟩
  cases hb : p.bulkReadError with
  | some msg =>
    rw [serveRun_of_bulk_err hb]
    exact ⟨fun pr hpr => absurd hpr (List.not_mem_nil pr), rfl⟩
  | none =>
    obtain ⟨h1, _, _⟩ := serveRun_state db hb
    rw [h1]
    obtain ⟨os, ls, ds, us, hc1, hc2, _, _, _, _, _, _, _, hc10, _⟩ :=
      runLoop_traces p db.profiles (snapshot db) (initState db)
    constructor
    · intro pr hpr hid hsent
      rw [hc1] at hpr
      have hos : pr ∈ os := by simpa [initState] using hpr
      obtain ⟨_, hsound⟩ := hc2 pr hos
      obtain ⟨hs1, _, _⟩ := hsound
      obtain ⟨hdks, _⟩ := hs1 hsent
      rw [hid, hdk] at hdks
      exact Bool.noConfusion hdks
    · exact hc10 rfl

def c5p : RunParams :=
  { now := 0, dispatchOk := fun _ => false, updateOk := fun _ => true,
    bulkReadError := none }

def c5inv : Invoice :=
  { id := 7, user_id := 10, amount := some 5000, due_date := some (-5),
    payment_reference := "r7", reminder_sent_at := none, reminder_count := some 1,
    status := "open" }

def c5prof : Profile :=
  { email := some "u@example.com", first_name := some "Jan", last_name := some "Doe" }

def c5db : Store := { invoices := [c5inv], profiles := [(10, c5prof)] }

theorem C5_witness :
    (c5inv ∈ c5db.invoices) ∧ (c5p.dispatchOk c5inv.id = false) ∧
    (((serveRun c5p c5db).1.invoices.filter (fun j => j.id == c5inv.id) =
        c5db.invoices.filter (fun j => j.id == c5inv.id)) ∧
     (∀ pr ∈ (serveRun c5p c5db).2.2.outcomes, pr.1.id = c5inv.id →
        pr.2 ≠ Outcome.sent) ∧
     (serveRun c5p c5db).2.2.remindersSent = sentCount (serveRun c5p c5db).2.2.outcomes) :=
  ⟨by decide, by decide,
   C5_dispatch_failure_unchanged c5p c5db c5inv (by decide) (by decide)⟩

/-- C9 (amended): when the bulk read succeeds and every invoice carries a
present amount (so no uncaught composition error aborts the run), the
response is `{ success: true, remindersSent: n }` with status 200, where `n`
counts exactly the invoices whose dispatch succeeded in this run. -/
theorem C9_amended_success_response (p : RunParams) (db : Store)
    (hb : p.bulkReadError = none)
    (ha : ∀ j ∈ db.invoices, j.amount.isSome = true) :
    (serveRun p db).2.1 = Response.ok ((serveRun p db).2.2.remindersSent) ∧
    (serveRun p db).2.2.remindersSent = sentCount (serveRun p db).2.2.outcomes := by
  obtain ⟨fin, hl⟩ := runLoop_ok_of_amounts p db.profiles (snapshot db) (initState db)
    (fun j hj => ha j ((snapshot_sublist db).subset hj))
  obtain ⟨os, ls, ds, us, hc1, hc2, _, _, _, _, _, _, _, hc10, _⟩ :=
    runLoop_traces p db.profiles (snapshot db) (initState db)
  have hcnt := hc10 rfl
  rw [hl] at hcnt
  simp only [resState] at hcnt
  rw [serveRun_of_loop_ok hb hl]
  exact ⟨rfl, hcnt⟩

def c9p : RunParams :=
  { now := 0, dispatchOk := fun _ => true, updateOk := fun _ => true,
    bulkReadError := none }

def c9bad : Invoice :=
  { id := 3, user_id := 20, amount := none, due_date := some 50,
    payment_reference := "r3", reminder_sent_at := none, reminder_count := none,
    status := "open" }

def c9prof : Profile :=
  { email := some "w@example.com", first_name := some "An", last_name := some "Smit" }

def c9db : Store := { invoices := [c9bad], profiles := [(20, c9prof)] }

/-- C9 counterexample: the bulk read succeeds, yet the run does not return a
success result — an invoice with a null amount throws during composition and
the handler answers with an error (500) response instead. -/
theorem C9_counterexample :
    c9p.bulkReadError = none ∧
    (serveRun c9p c9db).2.1 = Response.err "TypeError: cannot read toFixed of null" := by
  exact ⟨rfl, by decide⟩

def c9wp : RunParams :=
  { now := 0, dispatchOk := fun i => !(i == 5), updateOk := fun _ => true,
    bulkReadError := none }

def c9w1 : Invoice :=
  { id := 4, user_id := 20, amount := some 100, due_date := some (-50),
    payment_reference := "r4", reminder_sent_at := none, reminder_count := some 0,
    status := "open" }

def c9w2 : Invoice :=
  { id := 5, user_id := 20, amount := some 200, due_date := some (-60),
    payment_reference := "r5", reminder_sent_at := none, reminder_count := some 0,
    status := "open" }

def c9wdb : Store := { invoices := [c9w1, c9w2], profiles := [(20, c9prof)] }

theorem C9_witness :
    c9wp.bulkReadError = none ∧ (∀ j ∈ c9wdb.invoices, j.amount.isSome = true) ∧
    ((serveRun c9wp c9wdb).2.1 = Response.ok ((serveRun c9wp c9wdb).2.2.remindersSent) ∧
     (serveRun c9wp c9wdb).2.2.remindersSent =
       sentCount (serveRun c9wp c9wdb).2.2.outcomes) :=
  ⟨rfl, by decide, C9_amended_success_response c9wp c9wdb rfl (by decide)⟩

end InvoiceReminder

namespace InvoiceReminder

theorem filter_id_len_le_one : ∀ {l : List Invoice}, (l.map Invoice.id).Nodup →
    ∀ x, (l.filter (fun j => j.id == x)).length ≤ 1 := by
  intro l
  induction l with
  | nil => intro _ x; simp
  | cons a l ih =>
    intro hnd x
    rw [List.map_cons, List.nodup_cons] at hnd
    obtain ⟨hx, hnd'⟩ := hnd
    by_cases hax : a.id = x
    · have hnil : l.filter (fun j => j.id == x) = [] := by
        rw [List.filter_eq_nil_iff]
        intro j hj hjx
        refine hx ?_
        have hje : j.id = x := by simpa using hjx
        rw [hax, ← hje]
        exact List.mem_map_of_mem Invoice.id hj
      simp [List.filter_cons, hax, hnil]
    · simp only [List.filter_cons]
      rw [if_neg (by simp [hax])]
      exact ih hnd' x

/-- C8 (amended): when the post-send state update fails, the handler ignores
the failure entirely: the stored rows with that id are unchanged, the invoice
is still counted in `remindersSent` (the counter equals the number of `sent`
outcomes regardless of update failures), nothing is logged for it (the log
only records dispatch failures), and the update is not retried — at most one
update attempt is made for that id in the run. -/
theorem C8_amended_update_failure_silent (p : RunParams) (db : Store) (inv : Invoice)
    (hm : inv ∈ db.invoices) (huk : p.updateOk inv.id = false)
    (hnd : (db.invoices.map Invoice.id).Nodup) :
    ((serveRun p db).1.invoices.filter (fun j => j.id == inv.id) =
      db.invoices.filter (fun j => j.id == inv.id)) ∧
    (serveRun p db).2.2.remindersSent = sentCount (serveRun p db).2.2.outcomes ∧
    (serveRun p db).2.2.logs.length = failCount (serveRun p db).2.2.outcomes ∧
    ((serveRun p db).2.2.updates.filter (fun j => j.id == inv.id)).length ≤ 1 := by
  have hfilter : (serveRun p db).1.invoices.filter (fun j => j.id == inv.id) =
      db.invoices.filter (fun j => j.id == inv.id) := by
    refine forall₂_touched_filter ?_ (applyRun_invoices_rel p db)
    intro inv' _ hid hconj
    rw [hid] at hconj
    rw [hconj.2.2.2] at huk
    exact Bool.noConfusion huk
  refine ⟨hfilter, ?_⟩
  cases hb : p.bulkReadError with
  | some msg =>
    rw [serveRun_of_bulk_err hb]
    exact ⟨rfl, rfl, by simp [initState]⟩
  | none =>
    obtain ⟨h1, _, _⟩ := serveRun_state db hb
    rw [h1]
    obtain ⟨os, ls, ds, us, hc1, hc2, _, _, _, _, hc7, hc8, _, hc10, hc11⟩ :=
      runLoop_traces p db.profiles (snapshot db) (initState db)
    refine ⟨hc10 rfl, hc11 rfl, ?_⟩
    rw [hc7]
    simp only [initState, List.nil_append]
    exact filter_id_len_le_one ((hc8.map Invoice.id).nodup (snapshot_id_nodup hnd)) inv.id

def c8p : RunParams :=
  { now := 0, dispatchOk := fun _ => true, updateOk := fun _ => false,
    bulkReadError := none }

def c8inv : Invoice :=
  { id := 9, user_id := 30, amount := some 1234, due_date := some (-10),
    payment_reference := "r9", reminder_sent_at := none, reminder_count := some 0,
    status := "open" }

def c8prof : Profile :=
  { email := some "z@example.com", first_name := some "Pim", last_name := some "Kok" }

def c8db : Store := { invoices := [c8inv], profiles := [(30, c8prof)] }

/-- C8 counterexample: a dispatch succeeds but the post-send update fails;
nothing at all is logged (the log is empty), the run still reports one sent
reminder, and the store keeps the stale row — the failure is silently
masked, not surfaced distinctly. -/
theorem C8_counterexample :
    c8p.updateOk c8inv.id = false ∧
    (serveRun c8p c8db).2.2.outcomes = [(c8inv, Outcome.sent)] ∧
    (serveRun c8p c8db).2.2.updates = [c8inv] ∧
    (serveRun c8p c8db).2.2.logs = [] ∧
    (serveRun c8p c8db).2.2.remindersSent = 1 ∧
    (serveRun c8p c8db).1 = c8db := by
  refine ⟨rfl, by decide, by decide, by decide, by decide, by decide⟩

theorem C8_witness :
    (c8inv ∈ c8db.invoices) ∧ (c8p.updateOk c8inv.id = false) ∧
    ((c8db.invoices.map Invoice.id).Nodup) ∧
    (((serveRun c8p c8db).1.invoices.filter (fun j => j.id == c8inv.id) =
        c8db.invoices.filter (fun j => j.id == c8inv.id)) ∧
     (serveRun c8p c8db).2.2.remindersSent = sentCount (serveRun c8p c8db).2.2.outcomes ∧
     (serveRun c8p c8db).2.2.logs.length = failCount (serveRun c8p c8db).2.2.outcomes ∧
     ((serveRun c8p c8db).2.2.updates.filter (fun j => j.id == c8inv.id)).length ≤ 1) :=
  ⟨by decide, rfl, by decide,
   C8_amended_update_failure_silent c8p c8db c8inv (by decide) rfl (by decide)⟩

end InvoiceReminder

namespace InvoiceReminder

/-- C10: an invoice with a null due date is skipped before the window is
evaluated: it never reaches the recipient lookup, no dispatch is attempted
for it, any outcome recorded for it is `skippedNoDueDate`, the stored rows
with its id are unchanged, and no `sent` outcome (hence no `remindersSent`
contribution) is recorded for its id. -/
theorem C10_null_due_date_skipped (p : RunParams) (db : Store) (inv : Invoice)
    (hm : inv ∈ db.invoices) (hdue : inv.due_date = none)
    (hnd : (db.invoices.map Invoice.id).Nodup) :
    inv ∉ (serveRun p db).2.2.lookups ∧
    inv ∉ (serveRun p db).2.2.dispatches ∧
    (∀ o, (inv, o) ∈ (serveRun p db).2.2.outcomes → o = Outcome.skippedNoDueDate) ∧
    ((serveRun p db).1.invoices.filter (fun j => j.id == inv.id) =
      db.invoices.filter (fun j => j.id == inv.id)) ∧
    (∀ pr ∈ (serveRun p db).2.2.outcomes, pr.1.id = inv.id → pr.2 ≠ Outcome.sent) := by
  have hfilter : (serveRun p db).1.invoices.filter (fun j => j.id == inv.id) =
      db.invoices.filter (fun j => j.id == inv.id) := by
    refine forall₂_touched_filter ?_ (applyRun_invoices_rel p db)
    intro inv' hmem hid hconj
    have : inv' = inv := mem_id_inj hnd (mem_snapshot.mp hmem).1 hm hid
    rw [this, hdue] at hconj
    exact Bool.noConfusion hconj.1
  cases hb : p.bulkReadError with
  | some msg =>
    have he := @serveRun_of_bulk_err p db msg hb
    refine ⟨?_, ?_, ?_, hfilter, ?_⟩
    · rw [he]; exact List.not_mem_nil inv
    · rw [he]; exact List.not_mem_nil inv
    · rw [he]; exact fun o ho => absurd ho (List.not_mem_nil (inv, o))
    · rw [he]; exact fun pr hpr => absurd hpr (List.not_mem_nil pr)
  | none =>
    obtain ⟨h1, _, _⟩ := serveRun_state db hb
    rw [h1]
    obtain ⟨os, ls, ds, us, hc1, hc2, hc3, hc4, hc5, hc6, _, _, _, _, _⟩ :=
      runLoop_traces p db.profiles (snapshot db) (initState db)
    refine ⟨?_, ?_, ?_, hfilter, ?_⟩
    · intro hmem
      rw [hc3] at hmem
      have hls : inv ∈ ls := by simpa [initState] using hmem
      obtain ⟨_, hsome⟩ := hc4 inv hls
      rw [hdue] at hsome
      exact Bool.noConfusion hsome
    · intro hmem
      rw [hc5] at hmem
      have hds : inv ∈ ds := by simpa [initState] using hmem
      obtain ⟨_, d, hd, _, _⟩ := hc6 inv hds
      rw [hdue] at hd
      exact Option.noConfusion hd
    · intro o ho
      rw [hc1] at ho
      have hos : (inv, o) ∈ os := by simpa [initState] using ho
      obtain ⟨_, hsound⟩ := hc2 (inv, o) hos
      exact hsound.2.2 hdue
    · intro pr hpr hid hsent
      rw [hc1] at hpr
      have hos : pr ∈ os := by simpa [initState] using hpr
      obtain ⟨hmem, hsound⟩ := hc2 pr hos
      obtain ⟨_, d, hd, _, _⟩ := hsound.1 hsent
      have : pr.1 = inv := mem_id_inj hnd (mem_snapshot.mp hmem).1 hm hid
      rw [this, hdue] at hd
      exact Option.noConfusion hd

def c10p : RunParams :=
  { now := 0, dispatchOk := fun _ => true, updateOk := fun _ => true,
    bulkReadError := none }

def c10inv : Invoice :=
  { id := 11, user_id := 40, amount := some 900, due_date := none,
    payment_reference := "r11", reminder_sent_at := none, reminder_count := some 0,
    status := "open" }

def c10prof : Profile :=
  { email := some "q@example.com", first_name := some "Lien", last_name := some "Bos" }

def c10db : Store := { invoices := [c10inv], profiles := [(40, c10prof)] }

theorem C10_witness :
    (c10inv ∈ c10db.invoices) ∧ (c10inv.due_date = none) ∧
    ((c10db.invoices.map Invoice.id).Nodup) ∧
    (c10inv ∉ (serveRun c10p c10db).2.2.lookups ∧
     c10inv ∉ (serveRun c10p c10db).2.2.dispatches ∧
     (∀ o, (c10inv, o) ∈ (serveRun c10p c10db).2.2.outcomes →
        o = Outcome.skippedNoDueDate) ∧
     ((serveRun c10p c10db).1.invoices.filter (fun j => j.id == c10inv.id) =
        c10db.invoices.filter (fun j => j.id == c10inv.id)) ∧
     (∀ pr ∈ (serveRun c10p c10db).2.2.outcomes, pr.1.id = c10inv.id →
        pr.2 ≠ Outcome.sent)) :=
  ⟨by decide, rfl, by decide,
   C10_null_due_date_skipped c10p c10db c10inv (by decide) rfl (by decide)⟩

/-- C2: `reminder_count` never exceeds 3 after any number of sequential runs;
a `sent` outcome is only recorded for an invoice whose count was below 3; and
across one run each stored row is either untouched or — exactly when its
dispatch succeeded with the cap unreached — its count moves up by exactly 1
and its `reminder_sent_at` is set to the run time; nothing else changes it. -/
theorem C2_cap_invariant (runs : List RunParams) (p : RunParams) (db : Store)
    (hinv : ∀ j ∈ db.invoices, rcLe3 j)
    (hnd : (db.invoices.map Invoice.id).Nodup) :
    (∀ j ∈ (applyRuns runs db).invoices, rcLe3 j) ∧
    (∀ pr ∈ (serveRun p db).2.2.outcomes, pr.2 = Outcome.sent →
      pr.1.reminder_count.getD 0 < 3) ∧
    List.Forall₂ (fun a b => b = a ∨ (a.reminder_count.getD 0 < 3 ∧
        p.dispatchOk a.id = true ∧
        b.reminder_count = some (a.reminder_count.getD 0 + 1) ∧
        b.reminder_sent_at = some p.now))
      db.invoices (applyRun p db).invoices := by
  refine ⟨applyRuns_rcLe3 runs db hinv, ?_, applyRun_pointwise p db hnd⟩
  cases hb : p.bulkReadError with
  | some msg =>
    rw [serveRun_of_bulk_err hb]
    exact fun pr hpr => absurd hpr (List.not_mem_nil pr)
  | none =>
    obtain ⟨h1, _, _⟩ := serveRun_state db hb
    rw [h1]
    obtain ⟨os, ls, ds, us, hc1, hc2, _, _, _, _, _, _, _, _, _⟩ :=
      runLoop_traces p db.profiles (snapshot db) (initState db)
    intro pr hpr hsent
    rw [hc1] at hpr
    have hos : pr ∈ os := by simpa [initState] using hpr
    obtain ⟨_, hsound⟩ := hc2 pr hos
    obtain ⟨_, _, _, _, hcap⟩ := hsound.1 hsent
    exact (capReached_false_iff _).mp hcap

instance : DecidablePred rcLe3 :=
  fun inv => decidable_of_iff (inv.reminder_count.getD 0 ≤ 3) Iff.rfl

def c2p : RunParams :=
  { now := 0, dispatchOk := fun _ => true, updateOk := fun _ => true,
    bulkReadError := none }

def c2inv : Invoice :=
  { id := 13, user_id := 50, amount := some 777, due_date := some (-1),
    payment_reference := "r13", reminder_sent_at := none, reminder_count := some 2,
    status := "open" }

def c2prof : Profile :=
  { email := some "t@example.com", first_name := some "Sam", last_name := some "Vos" }

def c2db : Store := { invoices := [c2inv], profiles := [(50, c2prof)] }

theorem C2_witness :
    (∀ j ∈ c2db.invoices, rcLe3 j) ∧ ((c2db.invoices.map Invoice.id).Nodup) ∧
    ((∀ j ∈ (applyRuns [c2p, c2p, c2p, c2p] c2db).invoices, rcLe3 j) ∧
     (∀ pr ∈ (serveRun c2p c2db).2.2.outcomes, pr.2 = Outcome.sent →
        pr.1.reminder_count.getD 0 < 3) ∧
     List.Forall₂ (fun a b => b = a ∨ (a.reminder_count.getD 0 < 3 ∧
         c2p.dispatchOk a.id = true ∧
         b.reminder_count = some (a.reminder_count.getD 0 + 1) ∧
         b.reminder_sent_at = some c2p.now))
       c2db.invoices (applyRun c2p c2db).invoices) :=
  ⟨by decide, by decide,
   C2_cap_invariant [c2p, c2p, c2p, c2p] c2p c2db (by decide) (by decide)⟩

end InvoiceReminder
